import Mathlib

/-!
Verification of the sklearn-porter model-to-code compiler core against its
natural-language specification.

The Python sources embedded here are:
* `sklearn_porter/Estimator.py` (capability gating `can`, the execution
  harness `make`, `_system_call`, `_check_dependencies`),
* `sklearn_porter/estimator/DecisionTreeClassifier/__init__.py`
  (`port`, `_create_tree`, `_create_branch`),
* `sklearn_porter/estimator/MLPClassifier/__init__.py` and
  `sklearn_porter/estimator/MLPRegressor/__init__.py` (`port`, `SUPPORT`).

Floating-point model values are embedded as rationals (`Rat`); the only float
operations the compiler performs are equality tests against the exact
sentinels `-2.0` / `-1` and conversion to text through the injected
converter, both of which are exact.  Jinja templates are external per-language
data files; they are embedded as abstract render functions carried in a
structure, and every theorem quantifies over them.
-/

set_option autoImplicit false

namespace SkPorter

/-! ## Python string primitives used by the compiler -/

/-- Python `s * n` for a string `s` and a count `n` (used as
`depth * out_indent` in `_create_branch`). -/
def strRepeat (s : String) : Nat → String
  | 0 => ""
  | n + 1 => s ++ strRepeat s n

/-- Split a character list at every newline, keeping empty segments
(model of the line split performed by `textwrap.indent`; all strings the
compiler indents use `\n` terminators only). -/
def splitLines : List Char → List (List Char)
  | [] => [[]]
  | c :: rest =>
    if c = '\n' then [] :: splitLines rest
    else
      match splitLines rest with
      | [] => [[c]]
      | l :: ls => (c :: l) :: ls

/-- Python `str.join`: `sep.join(parts)`. -/
def pyJoin (sep : String) : List String → String
  | [] => ""
  | [s] => s
  | s :: rest => s ++ sep ++ pyJoin sep rest

/-- Python `textwrap.indent(text, prefix)` with the default predicate: the
prefix is prepended to every line that contains a non-whitespace character. -/
def textwrapIndent (text pre : String) : String :=
  pyJoin "\n"
    ((splitLines text.data).map
      (fun l =>
        if l.any (fun c => !c.isWhitespace) then pre ++ String.mk l
        else String.mk l))

/-- Replace every occurrence of the non-empty pattern `pat` (model of
Python `str.replace`).  The structural recursion is on a fuel argument;
every step consumes at least one character of the input, so a fuel equal to
the input length is exact. -/
def replaceSubFuel (pat rep : List Char) : Nat → List Char → List Char
  | 0, l => l
  | _ + 1, [] => []
  | fuel + 1, c :: rest =>
    if pat.isPrefixOf (c :: rest) then
      rep ++ replaceSubFuel pat rep fuel ((c :: rest).drop pat.length)
    else
      c :: replaceSubFuel pat rep fuel rest

/-- Python `str.replace` on character lists (non-empty pattern). -/
def replaceSub (pat rep l : List Char) : List Char :=
  replaceSubFuel pat rep l.length l

/-- Python `'classes[{0}] = {1}'.format(a, b)`-style formatting: substitute
the two positional fields of a template. -/
def pyFormat2 (tpl a b : String) : String :=
  String.mk (replaceSub ['\x7b', '1', '\x7d'] b.data
    (replaceSub ['\x7b', '0', '\x7d'] a.data tpl.data))

/-- Substring test on character lists (Boolean, executable). -/
def hasSub (hay needle : List Char) : Bool :=
  match hay with
  | [] => needle.isEmpty
  | _ :: rest => needle.isPrefixOf hay || hasSub rest needle

/-! ## Enumerations

The `Language`, `Template` and `Method` enumerations live in
`sklearn_porter/enums.py`, which is not among the given sources; they are
modelled from the spec (section 3: `PackagingMode ∈ {ATTACHED, COMBINED,
EXPORTED}`, `Method ∈ {PREDICT, PREDICT_PROBA}`, and the six target languages
referenced throughout the given sources). -/

/-- Modelled from the spec: the target-language enumeration of the enums
module (the six members referenced by the given sources). -/
inductive Language where
  | c | go | java | js | php | ruby
  deriving DecidableEq, Repr, Fintype

/-- Modelled from the spec: the packaging-mode enumeration (`Template`) of
the enums module. -/
inductive Template where
  | attached | combined | exported
  deriving DecidableEq, Repr, Fintype

/-- Modelled from the spec: the prediction-method enumeration of the enums
module. -/
inductive Method where
  | predict | predict_proba
  deriving DecidableEq, Repr, Fintype

/-- Modelled from the spec: `Language.value.KEY` of each enum member (the
lowercase key used in command and message formatting). -/
def Language.key : Language → String
  | .c => "c"
  | .go => "go"
  | .java => "java"
  | .js => "js"
  | .php => "php"
  | .ruby => "ruby"

/-- Modelled from the spec: `Template.value` of each enum member. -/
def Template.key : Template → String
  | .attached => "attached"
  | .combined => "combined"
  | .exported => "exported"

/-- `enum.ALL_METHODS`: both prediction methods. -/
def ALL_METHODS : List Method := [.predict, .predict_proba]

/-- The estimator kinds whose sources are given. -/
inductive EstimatorKind where
  | decisionTreeClassifier | mlpClassifier | mlpRegressor
  deriving DecidableEq, Repr, Fintype

/-- `estimator_name` of each embedded estimator kind. -/
def EstimatorKind.name : EstimatorKind → String
  | .decisionTreeClassifier => "DecisionTreeClassifier"
  | .mlpClassifier => "MLPClassifier"
  | .mlpRegressor => "MLPRegressor"

/-! ## Capability Registry (`SUPPORT` tables and `can`) -/

/-- `DecisionTreeClassifier.SUPPORT` (estimator/DecisionTreeClassifier). -/
def dtcSUPPORT : List (Language × List (Template × List Method)) :=
  [ (.c,    [(.attached, ALL_METHODS), (.combined, ALL_METHODS)]),
    (.go,   [(.attached, ALL_METHODS), (.combined, ALL_METHODS),
             (.exported, ALL_METHODS)]),
    (.java, [(.attached, ALL_METHODS), (.combined, ALL_METHODS),
             (.exported, ALL_METHODS)]),
    (.js,   [(.attached, ALL_METHODS), (.combined, ALL_METHODS),
             (.exported, ALL_METHODS)]),
    (.php,  [(.attached, ALL_METHODS), (.combined, ALL_METHODS),
             (.exported, ALL_METHODS)]),
    (.ruby, [(.attached, ALL_METHODS), (.combined, ALL_METHODS),
             (.exported, ALL_METHODS)]) ]

/-- `MLPClassifier.SUPPORT` (estimator/MLPClassifier). -/
def mlpcSUPPORT : List (Language × List (Template × List Method)) :=
  [ (.java, [(.attached, ALL_METHODS), (.exported, ALL_METHODS)]),
    (.js,   [(.attached, ALL_METHODS), (.exported, ALL_METHODS)]) ]

/-- `MLPRegressor.SUPPORT` (estimator/MLPRegressor). -/
def mlprSUPPORT : List (Language × List (Template × List Method)) :=
  [ (.js, [(.attached, [.predict]), (.exported, [.predict])]) ]

/-- The `SUPPORT` class attribute looked up by `can` through
`getattr(clazz, 'SUPPORT')`. -/
def SUPPORT : EstimatorKind → List (Language × List (Template × List Method))
  | .decisionTreeClassifier => dtcSUPPORT
  | .mlpClassifier => mlpcSUPPORT
  | .mlpRegressor => mlprSUPPORT

/-- `sklearn_porter.Estimator.can`: check the support of the given
arguments.  The three embedded kinds are all members of
`Estimator.classifiers() + Estimator.regressors()`, so the candidate-name
check succeeds for them.  Mirrors the nested `if` structure of the source:
with no language given, the call succeeds only when template and method are
also absent. -/
def can (kind : EstimatorKind) (language : Option Language)
    (template : Option Template) (method : Option Method) : Bool :=
  if language.isNone && template.isNone && method.isNone then
    true
  else
    match language with
    | none => false
    | some lang =>
      match (SUPPORT kind).lookup lang with
      | none => false
      | some tmpls =>
        match template with
        | none => true
        | some t =>
          match tmpls.lookup t with
          | none => false
          | some methods =>
            match method with
            | none => true
            | some m => methods.contains m

/-! ## Tree Compiler (`DecisionTreeClassifier._create_branch` / `_create_tree`)

The Jinja templates `'indent'`, `'if'`, `'else'`, `'endif'` and `'join'` are
per-language data files outside the given sources; they are carried as
abstract render results / render functions. -/

/-- The template bundle used by the tree compiler: the rendered `'indent'`,
`'else'`, `'endif'` and `'join'` templates, and the `'if'` template as a
function of its `a`, `op`, `b` slots. -/
structure TreeTemplates where
  indentTpl : String
  ifTpl : String → String → String → String
  elseTpl : String
  endifTpl : String
  joinTpl : String

/-- The `val_a` expression of `_create_branch`:
`'features[{}]'.format(features[node])`, with the `$` sigil for PHP. -/
def featureRef (language : Language) (features : List Int) (node : Nat) : String :=
  let v := "features[" ++ toString (features.getD node 0) ++ "]"
  if language = .php then "$" ++ v else v

/-- The leaf assignment template of `_create_branch`:
`'classes[{0}] = {1}'`, with the `$` sigil for PHP, indented by
`depth * out_indent` before formatting. -/
def leafTpl (language : Language) (indentTpl : String) (depth : Nat) : String :=
  let tpl0 := "classes[\x7b0\x7d] = \x7b1\x7d"
  let tpl1 := if language = .php then "$" ++ tpl0 else tpl0
  textwrapIndent tpl1 (strRepeat indentTpl depth)

/-- The per-leaf assignment fragments of `_create_branch` (the `clazzes`
list): one `'\n' + tpl.format(i, rate)` fragment for every enumerated class
count `rate > 0` (`if int(rate) > 0`). -/
def leafAssignments (language : Language) (indentTpl : String) (depth : Nat)
    (row : List Int) : List String :=
  let tpl := leafTpl language indentTpl depth
  row.enum.filterMap
    (fun p => if 0 < p.2 then some ("\n" ++ pyFormat2 tpl (toString p.1) (toString p.2))
              else none)

/-- `DecisionTreeClassifier._create_branch`.  The recursion is paid for with
an explicit fuel argument: the Python source recurses unboundedly and only
terminates on descriptors whose child links are acyclic, which any concrete
fuel larger than the tree depth witnesses.  Exhausted fuel returns `""` (a
state the Python code never reaches on well-formed trees). -/
def createBranch (tpls : TreeTemplates) (language : Language)
    (converter : Rat → String) (left_nodes right_nodes : List Int)
    (threshold : List Rat) (value : List (List Int)) (features : List Int) :
    Nat → Nat → Nat → String
  | _, _, 0 => ""
  | node, depth, fuel + 1 =>
    let out_indent := tpls.indentTpl
    if threshold.getD node 0 ≠ -2 then
      let val_a := featureRef language features node
      let val_b := converter (threshold.getD node 0)
      let out_if := textwrapIndent (tpls.ifTpl val_a "<=" val_b) (strRepeat out_indent depth)
      let out_left :=
        if left_nodes.getD node 0 ≠ -1 then
          createBranch tpls language converter left_nodes right_nodes threshold
            value features (left_nodes.getD node 0).toNat (depth + 1) fuel
        else ""
      let out_else := textwrapIndent tpls.elseTpl (strRepeat out_indent depth)
      let out_right :=
        if right_nodes.getD node 0 ≠ -1 then
          createBranch tpls language converter left_nodes right_nodes threshold
            value features (right_nodes.getD node 0).toNat (depth + 1) fuel
        else ""
      let out_endif := textwrapIndent tpls.endifTpl (strRepeat out_indent depth)
      "\n" ++ out_if ++ out_left ++ "\n" ++ out_else ++ out_right ++ "\n" ++ out_endif
    else
      let clazzes := leafAssignments language out_indent depth (value.getD node [])
      pyJoin tpls.joinTpl clazzes ++ tpls.joinTpl

/-- `DecisionTreeClassifier._create_tree`: start the recursion at the root
with an initial depth of 1 for the four block-indented languages, 0
otherwise. -/
def createTree (tpls : TreeTemplates) (language : Language)
    (converter : Rat → String) (lefts rights : List Int) (thresholds : List Rat)
    (classes : List (List Int)) (indices : List Int) (fuel : Nat) : String :=
  let n_indents :=
    if language = .java ∨ language = .js ∨ language = .php ∨ language = .ruby
    then 1 else 0
  createBranch tpls language converter lefts rights thresholds classes indices
    0 n_indents fuel

/-! ## Model data and EXPORTED-mode JSON serialization

`port` serializes `self.model_data` with
`json.dumps(..., separators=(',', ':'))` after installing the injected
converter as `json.encoder.FLOAT_REPR`.  The serializer is embedded for the
value shapes that occur in `model_data`: the float hook applies to floats
only; integers are rendered by the standard decimal `repr`; keys are emitted
in dict insertion order; the only separators are `','` and `':'`.  (The
strings occurring in `model_data` are plain identifiers, so JSON string
escaping is not modelled.) -/

/-- `DecisionTreeClassifier.model_data`: the five parallel arrays extracted
from the fitted tree. -/
structure TreeModelData where
  lefts : List Int
  rights : List Int
  thresholds : List Rat
  indices : List Int
  classes : List (List Int)

/-- `MLPClassifier.model_data` (also used by `MLPRegressor`, which inherits
`port`); `output_activation` is present exactly for the classifier. -/
structure MLPModelData where
  layers : List Int
  weights : List (List (List Rat))
  bias : List (List Rat)
  hidden_activation : String
  output_activation : Option String

/-- The JSON values `json.dumps` receives from `model_data`. -/
inductive PyJson where
  | int (i : Int)
  | float (q : Rat)
  | str (s : String)
  | arr (elems : List PyJson)
  | obj (fields : List (String × PyJson))

mutual

/-- `json.dumps(v, separators=(',', ':'))` with `encoder.FLOAT_REPR`
installed as `fr`: compact separators, floats through the hook, integers
through decimal `repr`, object keys in insertion order. -/
def pyDumps (fr : Rat → String) : PyJson → String
  | .int i => toString i
  | .float q => fr q
  | .str s => "\"" ++ s ++ "\""
  | .arr es => "[" ++ pyDumpsList fr es ++ "]"
  | .obj fs => "\x7b" ++ pyDumpsFields fr fs ++ "\x7d"

/-- Array elements joined by the `','` item separator. -/
def pyDumpsList (fr : Rat → String) : List PyJson → String
  | [] => ""
  | [e] => pyDumps fr e
  | e :: rest => pyDumps fr e ++ "," ++ pyDumpsList fr rest

/-- Object entries `"key":value` joined by the `','` item separator, with
the `':'` key separator. -/
def pyDumpsFields (fr : Rat → String) : List (String × PyJson) → String
  | [] => ""
  | [kv] => "\"" ++ kv.1 ++ "\":" ++ pyDumps fr kv.2
  | kv :: rest => "\"" ++ kv.1 ++ "\":" ++ pyDumps fr kv.2 ++ "," ++ pyDumpsFields fr rest

end

mutual

/-- The serializer the spec describes, written from the spec's words for
refinement comparison only: identical to `pyDumps` except that EVERY numeric
value (integers included) is formatted by the injected converter. -/
def specDumpsAllNumeric (conv : Rat → String) : PyJson → String
  | .int i => conv (i : Rat)
  | .float q => conv q
  | .str s => "\"" ++ s ++ "\""
  | .arr es => "[" ++ specDumpsAllNumericList conv es ++ "]"
  | .obj fs => "\x7b" ++ specDumpsAllNumericFields conv fs ++ "\x7d"

/-- Array case of `specDumpsAllNumeric`. -/
def specDumpsAllNumericList (conv : Rat → String) : List PyJson → String
  | [] => ""
  | [e] => specDumpsAllNumeric conv e
  | e :: rest => specDumpsAllNumeric conv e ++ "," ++ specDumpsAllNumericList conv rest

/-- Object case of `specDumpsAllNumeric`. -/
def specDumpsAllNumericFields (conv : Rat → String) : List (String × PyJson) → String
  | [] => ""
  | [kv] => "\"" ++ kv.1 ++ "\":" ++ specDumpsAllNumeric conv kv.2
  | kv :: rest =>
    "\"" ++ kv.1 ++ "\":" ++ specDumpsAllNumeric conv kv.2 ++ ","
      ++ specDumpsAllNumericFields conv rest

end

/-- `DecisionTreeClassifier.model_data` as the JSON value passed to
`dumps`, keys in the dict's insertion order. -/
def treeModelDataJson (d : TreeModelData) : PyJson :=
  .obj [ ("lefts", .arr (d.lefts.map .int)),
         ("rights", .arr (d.rights.map .int)),
         ("thresholds", .arr (d.thresholds.map .float)),
         ("indices", .arr (d.indices.map .int)),
         ("classes", .arr (d.classes.map (fun row => .arr (row.map .int)))) ]

/-- `MLPClassifier.model_data` as the JSON value passed to `dumps`; the
`output_activation` key is appended only when present, matching the
conditional `self.model_data['output_activation'] = ...`. -/
def mlpModelDataJson (d : MLPModelData) : PyJson :=
  .obj
    ([ ("layers", .arr (d.layers.map .int)),
       ("weights", .arr (d.weights.map
         (fun layer => .arr (layer.map (fun row => .arr (row.map .float)))))),
       ("bias", .arr (d.bias.map (fun row => .arr (row.map .float)))),
       ("hidden_activation", .str d.hidden_activation) ]
     ++ match d.output_activation with
        | some s => [("output_activation", .str s)]
        | none => [])

/-- The EXPORTED-mode data file content for a tree model:
`dumps(self.model_data, separators=(',', ':'))` with
`encoder.FLOAT_REPR = lambda o: converter(o)`. -/
def treeExportedData (converter : Rat → String) (d : TreeModelData) : String :=
  pyDumps converter (treeModelDataJson d)

/-- The EXPORTED-mode data file content for an MLP model. -/
def mlpExportedData (converter : Rat → String) (d : MLPModelData) : String :=
  pyDumps converter (mlpModelDataJson d)

/-! ## `port` of the two estimator families -/

/-- The value returned by `port`: one source string (ATTACHED / COMBINED)
or the `(out_class, model_data)` tuple (EXPORTED). -/
inductive PortOut where
  | single (source : String)
  | pair (out_class model_data : String)
  deriving DecidableEq, Repr

/-- Whether a `port` result is the EXPORTED-mode tuple. -/
def PortOut.isPair : PortOut → Bool
  | .single _ => false
  | .pair _ _ => true

/-- The template bundle of `DecisionTreeClassifier.port`, extending the tree
compiler's templates with the data-literal and class templates.  Class
templates take the class name; the data templates mirror the slots the
source fills (`type`, `name`, `values`, `n`, `m`). -/
structure DTCTemplates extends TreeTemplates where
  intTpl : String
  doubleTpl : String
  arr1 : String → String → String → Nat → String
  arr2 : String → String → String → Nat → Nat → String
  inBrackets : String → String
  attachedClass : String → String → String → String → String → String → String
  combinedClass : String → String → String → String → String → String → String → String
  exportedClass : String → String

/-- `DecisionTreeClassifier.port`. -/
def dtcPort (tpls : DTCTemplates) (language : Language) (template : Template)
    (class_name : String) (converter : Rat → String) (d : TreeModelData)
    (fuel : Nat) : PortOut :=
  if template = .exported then
    .pair (tpls.exportedClass class_name) (treeExportedData converter d)
  else
    let tpl_int := tpls.intTpl
    let tpl_double := tpls.doubleTpl
    let lefts_str :=
      tpls.arr1 tpl_int "lefts" (pyJoin ", " (d.lefts.map toString)) d.lefts.length
    let rights_str :=
      tpls.arr1 tpl_int "rights" (pyJoin ", " (d.rights.map toString)) d.rights.length
    let thresholds_str :=
      tpls.arr1 tpl_double "thresholds" (pyJoin ", " (d.thresholds.map converter))
        d.thresholds.length
    let indices_str :=
      tpls.arr1 tpl_int "indices" (pyJoin ", " (d.indices.map toString)) d.indices.length
    let classes_rows := d.classes.map (fun e => pyJoin ", " (e.map toString))
    let classes_str :=
      tpls.arr2 tpl_int "classes" (pyJoin ", " (classes_rows.map tpls.inBrackets))
        d.classes.length ((d.classes.headD []).length)
    if template = .attached then
      .single (tpls.attachedClass class_name lefts_str rights_str thresholds_str
        indices_str classes_str)
    else
      .single (tpls.combinedClass class_name lefts_str rights_str thresholds_str
        indices_str classes_str
        (createTree tpls.toTreeTemplates language converter d.lefts d.rights
          d.thresholds d.classes d.indices fuel))

/-- The template bundle of `MLPClassifier.port`. -/
structure MLPTemplates where
  intTpl : String
  doubleTpl : String
  arr1 : String → String → String → Nat → String
  arr2 : String → String → String → Nat → Nat → String
  arr3 : String → String → String → Nat → Nat → Nat → String
  inBrackets : String → String
  attachedClass : String → String → String → String → String → Option String → String
  exportedClass : String → String

/-- `MLPClassifier.port` (inherited unchanged by `MLPRegressor`).  Note the
source has no COMBINED branch: any non-EXPORTED template falls through to
the attached rendering. -/
def mlpPort (tpls : MLPTemplates) (template : Template) (class_name : String)
    (converter : Rat → String) (d : MLPModelData) : PortOut :=
  if template = .exported then
    .pair (tpls.exportedClass class_name) (mlpExportedData converter d)
  else
    let layers_str :=
      tpls.arr1 tpls.intTpl "layers" (pyJoin ", " (d.layers.map toString)) d.layers.length
    let weights_rows := d.weights.map
      (fun layer => tpls.inBrackets (pyJoin ", "
        (layer.map (fun l => tpls.inBrackets (pyJoin ", " (l.map converter))))))
    let weights_str :=
      tpls.arr3 tpls.doubleTpl "weights" (pyJoin ", " weights_rows)
        d.weights.length ((d.weights.headD []).length)
        (((d.weights.headD []).headD []).length)
    let bias_str :=
      tpls.arr2 tpls.doubleTpl "bias"
        (pyJoin ", " (d.bias.map (fun v => tpls.inBrackets (pyJoin ", " (v.map converter)))))
        d.bias.length ((d.bias.headD []).length)
    .single (tpls.attachedClass class_name layers_str weights_str bias_str
      d.hidden_activation d.output_activation)

/-! ## Execution harness (`_system_call`, `make`)

External process behaviour is supplied by the environment: each attempt of
`_system_call` either fails with a non-zero exit (`CalledProcessError`) or
produces standard output whose JSON parse either fails or yields an object
with optional `predict` / `predict_proba` keys.  A raised Python exception is
embedded as `Except.error`; a normal return of Python `None` as
`Except.ok none`. -/

/-- A prediction value read back from the generated program's JSON line. -/
inductive PyVal where
  | num (q : Rat)
  | arr (l : List Rat)
  deriving DecidableEq, Repr, Inhabited

/-- The JSON object parsed from one invocation's standard output. -/
structure ParsedOut where
  predict : Option PyVal
  predict_proba : Option PyVal
  deriving DecidableEq, Repr

/-- The outcome of one `check_output` attempt: a `CalledProcessError`, or
captured output that parses (`some`) or fails to parse (`none`). -/
inductive AttemptOutcome where
  | callError
  | output (parsed : Option ParsedOut)
  deriving DecidableEq, Repr

/-- Python exceptions are embedded by their message. -/
abbrev PyExc := String

/-- Equality of embedded Python results (raised exception or returned
value) is decidable. -/
instance {ε α : Type} [DecidableEq ε] [DecidableEq α] : DecidableEq (Except ε α) :=
  fun a b =>
    match a, b with
    | .error e, .error f =>
      if h : e = f then isTrue (by rw [h])
      else isFalse (fun hc => by cases hc; exact h rfl)
    | .ok x, .ok y =>
      if h : x = y then isTrue (by rw [h])
      else isFalse (fun hc => by cases hc; exact h rfl)
    | .error _, .ok _ => isFalse (fun hc => by cases hc)
    | .ok _, .error _ => isFalse (fun hc => by cases hc)

/-- The retry loop body of `_system_call` over the listed attempt outcomes:
a `CalledProcessError` sleeps and retries; a `JSONDecodeError` is logged
and the loop moves to the next attempt; a parsed object returns the
`result` list built from its `predict` / `predict_proba` keys.  Falling off
the end of the loop returns Python `None` (`.ok none`): no code path
constructs an exception because both handlers swallow their errors. -/
def systemCallLoop : List AttemptOutcome → Except PyExc (Option (List PyVal))
  | [] => .ok none
  | .callError :: rest => systemCallLoop rest
  | .output none :: rest => systemCallLoop rest
  | .output (some parsed) :: _ =>
    match parsed.predict with
    | none => .ok (some [])
    | some p =>
      match parsed.predict_proba with
      | none => .ok (some [p])
      | some pp => .ok (some [p, pp])

/-- `_system_call(cmd)`: run the retry loop for exactly the `range(10)`
attempts drawn from the environment. -/
def systemCall (env : Nat → AttemptOutcome) : Except PyExc (Option (List PyVal)) :=
  systemCallLoop ((List.range 10).map env)

/-! ### Worker pool (`Pool.map` versus `list(map(...))`)

`multiprocessing.Pool.map` is modelled by its completion semantics: tasks
finish in an arbitrary order (a permutation of the task indices supplied by
the scheduler), and each finished task deposits its result in the slot of
its own index; the pool's join then reads the slots in index order. -/

/-- `list(map(calls, x))`: the synchronous single-worker run. -/
def seqRun {α β : Type} (f : α → β) (xs : List α) : List β :=
  xs.map f

/-- One completion event of the pool: task `j` finishes and stores its
result at slot `j`. -/
def poolStep {α β : Type} (f : α → β) (xs : List α)
    (slots : List (Option β)) (j : Nat) : List (Option β) :=
  match xs.get? j with
  | some x => slots.set j (some (f x))
  | none => slots

/-- `Pool(n_jobs).map(calls, x)` under a scheduler that completes the tasks
in the order `order`: fold the completion events over initially empty
slots. -/
def poolRun {α β : Type} (f : α → β) (xs : List α) (order : List Nat) :
    List (Option β) :=
  order.foldl (poolStep f xs) (List.replicate xs.length none)

/-! ### Result reassembly (`make` after the calls return) -/

/-- Python `zip(*rows)` on a list of lists: tuples of the elements at each
index, truncated to the shortest row (`zip()` of no rows is empty). -/
def pyZip (ls : List (List PyVal)) : List (List PyVal) :=
  match (ls.map List.length).min? with
  | none => []
  | some m => (List.range m).map (fun i => ls.map (fun l => l.getD i default))

/-- The value `make` returns: the four `return` shapes of the source. -/
inductive MakeOutput where
  | scalar (pred : PyVal) (proba : Option PyVal)
  | vector (preds : List PyVal) (probas : Option (List PyVal))
  deriving DecidableEq, Repr

/-- The `TypeError` of `zip(*y)` when some row result is Python `None`. -/
def zipTypeError : PyExc := "TypeError: zip argument must support iteration"

/-- The `IndexError` of `y[0]` when `zip` produced no tuples. -/
def zeroIndexError : PyExc := "IndexError: list index out of range"

/-- The tail of `Estimator.make` from `y = list(zip(*y))` on: reassemble the
per-row results into the returned prediction (and probability) vectors.  A
row equal to Python `None` makes `zip(*y)` raise a `TypeError`; an empty
`zip` makes the `y[0]` of the two-sided branch raise an `IndexError`. -/
def makeAggregate (rows : List (Option (List PyVal))) : Except PyExc MakeOutput :=
  if rows.any (fun r => r = none) then
    .error zipTypeError
  else
    let y := pyZip (rows.map (fun r => r.getD []))
    if y.length = 1 then
      if (y.headD []).length = 1 then
        .ok (.scalar ((y.headD []).headD default) none)
      else
        .ok (.vector (y.headD []) none)
    else
      if y.length = 0 then
        .error zeroIndexError
      else
        if (y.headD []).length = 1 then
          .ok (.scalar ((y.headD []).headD default) (some ((y.getD 1 []).headD default)))
        else
          .ok (.vector (y.headD []) (some (y.getD 1 [])))

/-- Python `list(map(f, xs))` for a fallible `f`: the first raised
exception propagates. -/
def pyMapE {α β : Type} (f : α → Except PyExc β) : List α → Except PyExc (List β)
  | [] => .ok []
  | x :: rest =>
    match f x with
    | .error e => .error e
    | .ok y =>
      match pyMapE f rest with
      | .error e => .error e
      | .ok ys => .ok (y :: ys)

/-- The execution-and-collection phase of `make` on a batch, in the
synchronous single-worker form `y = list(map(calls, x))` followed by the
reassembly; an exception raised by any row call propagates. -/
def makeCollect (rowEnvs : List (Nat → AttemptOutcome)) : Except PyExc MakeOutput :=
  match pyMapE systemCall rowEnvs with
  | .error e => .error e
  | .ok rows => makeAggregate rows

/-! ### Dependency pre-flight (`_check_dependencies`) and file creation -/

/-- The host environment: which executables `shutil.which` finds on the
`PATH`. -/
structure HostEnv where
  pathBinaries : List String

/-- The language metadata carried by each `Language` enum member (defined in
the enums module outside the given sources; its contents stay abstract and
every theorem quantifies over them). -/
structure LanguageMeta where
  DEPENDENCIES : List String

/-- `Estimator._check_dependencies`: raise `RuntimeError` on the first
required application `shutil.which` cannot find. -/
def checkDependencies (env : HostEnv) (meta : LanguageMeta) : Except PyExc Unit :=
  match meta.DEPENDENCIES.find? (fun app => !env.pathBinaries.contains app) with
  | some app => .error ("Required dependency `" ++ app ++ "` is missing.")
  | none => .ok ()

/-- `Estimator.make` at the file-creation granularity: the dependency
pre-flight runs first (when enabled); only afterwards does `save` write the
source (and EXPORTED data) files and `_compile` its artifacts, and only then
do the row invocations run.  The second component lists every file the call
wrote to disk. -/
def makeRun (env : HostEnv) (meta : LanguageMeta) (check_dependencies : Bool)
    (saveFiles compileFiles : List String)
    (rowEnvs : List (Nat → AttemptOutcome)) :
    Except PyExc MakeOutput × List String :=
  if check_dependencies then
    match checkDependencies env meta with
    | .error e => (.error e, [])
    | .ok _ => (makeCollect rowEnvs, saveFiles ++ compileFiles)
  else
    (makeCollect rowEnvs, saveFiles ++ compileFiles)

/-! ## Capability gating in the request pipeline

`Estimator.port` runs `_check_kwargs` first, which assigns the `language`
and then the `template` property; each setter validates through `can` and
raises `NotSupportedYetError` before the estimator's `port` (and with it any
template lookup or render) can run. -/

/-- The message of the `language` setter's `NotSupportedYetError`. -/
def languageRejectMsg (kind : EstimatorKind) (lang : Language) : PyExc :=
  "The passed language `" ++ lang.key ++ "` is not supported for the estimator `"
    ++ kind.name ++ "`."

/-- The message of the `template` setter's `NotSupportedYetError`. -/
def templateRejectMsg (kind : EstimatorKind) (lang : Language) (tmpl : Template) : PyExc :=
  "The passed template `" ++ tmpl.key ++ "` is not supported for the estimator `"
    ++ kind.name ++ "` and language `" ++ lang.key ++ "`."

/-- The `language` property setter: accept the language or raise. -/
def setLanguage (kind : EstimatorKind) (lang : Language) : Except PyExc Language :=
  if can kind (some lang) none none then .ok lang
  else .error (languageRejectMsg kind lang)

/-- The `template` property setter: accept the template for the already-set
language or raise. -/
def setTemplate (kind : EstimatorKind) (lang : Language) (tmpl : Template) :
    Except PyExc Template :=
  if can kind (some lang) (some tmpl) none then .ok tmpl
  else .error (templateRejectMsg kind lang tmpl)

/-- A port request: validate the language, then the template, then and only
then run the estimator's `port` (the stage that loads and renders
templates), supplied here as a function argument. -/
def portPipeline (kind : EstimatorKind) (lang : Language) (tmpl : Template)
    (portRun : Language → Template → PortOut) : Except PyExc PortOut :=
  match setLanguage kind lang with
  | .error e => .error e
  | .ok l =>
    match setTemplate kind l tmpl with
    | .error e => .error e
    | .ok t => .ok (portRun l t)

/-- The rejection message a request with an unsupported combination
receives: the language message when the language itself is unsupported for
the estimator, the template message otherwise. -/
def rejectionMsg (kind : EstimatorKind) (lang : Language) (tmpl : Template) : PyExc :=
  if can kind (some lang) none none then templateRejectMsg kind lang tmpl
  else languageRejectMsg kind lang

/-! ## Shared lemmas and concrete instances -/

/-- `filterMap` with a guarded `some` is `map` over `filter`. -/
theorem filterMap_ite_eq_filter_map {α β : Type} (p : α → Prop) [DecidablePred p]
    (f : α → β) (l : List α) :
    l.filterMap (fun x => if p x then some (f x) else none)
      = (l.filter (fun x => decide (p x))).map f := by
  induction l with
  | nil => rfl
  | cons x xs ih =>
    by_cases h : p x <;> simp [List.filterMap_cons, List.filter_cons, h, ih]

/-- Filtering the enumerated row on positive counts keeps as many entries
as filtering the row itself. -/
theorem length_filter_enumFrom (n : Nat) (row : List Int) :
    ((List.enumFrom n row).filter (fun p => decide (0 < p.2))).length
      = (row.filter (fun r => decide (0 < r))).length := by
  induction row generalizing n with
  | nil => rfl
  | cons r rs ih =>
    by_cases h : 0 < r <;> simp [List.enumFrom, List.filter_cons, h, ih]

/-- An all-zero row survives the positive-count filter nowhere. -/
theorem filter_enumFrom_eq_nil (n : Nat) (row : List Int)
    (h : ∀ r ∈ row, r = 0) :
    (List.enumFrom n row).filter (fun p => decide (0 < p.2)) = [] := by
  induction row generalizing n with
  | nil => rfl
  | cons r rs ih =>
    have hr : r = 0 := h r (by simp)
    simp [List.enumFrom, List.filter_cons, hr,
      ih (n + 1) (fun x hx => h x (by simp [hx]))]

/-- Modelled from the spec: a concrete C-style bundle of the per-language
if/else/endif/indent/join templates, used to run the compiler on concrete
descriptors. -/
def demoTreeTpls : TreeTemplates :=
  { indentTpl := "    "
    ifTpl := fun a op b => "if (" ++ a ++ " " ++ op ++ " " ++ b ++ ") \x7b"
    elseTpl := "\x7d else \x7b"
    endifTpl := "\x7d"
    joinTpl := ";" }

/-- A concrete injected converter that renders every number as `"T"`. -/
def demoConv : Rat → String := fun _ => "T"

/-! ## Claim C1 -/

/-- C1: at a node whose threshold is the leaf sentinel `-2.0` the tree
compiler emits exactly the assignment fragments of the class indices with a
positive count: the output is those fragments joined by (and terminated
with) the join fragment; the fragment list is the positive entries of the
enumerated class-count row in order, so there is exactly one fragment per
positive index and none for a zero count; in particular an all-zero row
emits no assignment statements at all. -/
theorem leaf_emits_one_assignment_per_positive_class
    (tpls : TreeTemplates) (language : Language) (converter : Rat → String)
    (L R : List Int) (T : List Rat) (V : List (List Int)) (F : List Int)
    (node depth fuel : Nat) (hleaf : T.getD node 0 = -2) :
    createBranch tpls language converter L R T V F node depth (fuel + 1)
        = pyJoin tpls.joinTpl
            (leafAssignments language tpls.indentTpl depth (V.getD node []))
          ++ tpls.joinTpl
    ∧ leafAssignments language tpls.indentTpl depth (V.getD node [])
        = ((V.getD node []).enum.filter (fun p => decide (0 < p.2))).map
            (fun p => "\n" ++ pyFormat2 (leafTpl language tpls.indentTpl depth)
              (toString p.1) (toString p.2))
    ∧ (leafAssignments language tpls.indentTpl depth (V.getD node [])).length
        = ((V.getD node []).filter (fun r => decide (0 < r))).length
    ∧ ((∀ r ∈ V.getD node [], r = 0) →
        createBranch tpls language converter L R T V F node depth (fuel + 1)
          = tpls.joinTpl) := by
  have h2 : T[node]?.getD 0 = -2 := by
    simpa [List.getD_eq_getElem?_getD] using hleaf
  have hmain : createBranch tpls language converter L R T V F node depth (fuel + 1)
      = pyJoin tpls.joinTpl
          (leafAssignments language tpls.indentTpl depth (V.getD node []))
        ++ tpls.joinTpl := by
    simp [createBranch, h2, leafAssignments, leafTpl, List.getD_eq_getElem?_getD]
  have hfrag : leafAssignments language tpls.indentTpl depth (V.getD node [])
      = ((V.getD node []).enum.filter (fun p => decide (0 < p.2))).map
          (fun p => "\n" ++ pyFormat2 (leafTpl language tpls.indentTpl depth)
            (toString p.1) (toString p.2)) := by
    simpa [leafAssignments] using
      filterMap_ite_eq_filter_map (fun p : Nat × Int => 0 < p.2)
        (fun p => "\n" ++ pyFormat2 (leafTpl language tpls.indentTpl depth)
          (toString p.1) (toString p.2)) (V.getD node []).enum
  refine ⟨hmain, hfrag, ?_, ?_⟩
  · rw [hfrag, List.length_map, List.enum, length_filter_enumFrom]
  · intro hz
    rw [hmain, hfrag, List.enum, filter_enumFrom_eq_nil 0 _ hz]
    rfl

/-- Witness for C1: a concrete one-node tree whose leaf row is all zeros
emits only the join fragment `";"`, no assignment statements. -/
theorem leaf_emits_one_assignment_per_positive_class_witness :
    (([(-2 : Rat)] : List Rat).getD 0 0 = -2) ∧
    createBranch demoTreeTpls .java demoConv [-1] [-1] [-2] [[0, 0, 0]] [0] 0 1 1
      = ";" := by
  refine ⟨by decide, ?_⟩
  have h := leaf_emits_one_assignment_per_positive_class demoTreeTpls .java
    demoConv [-1] [-1] [-2] [[0, 0, 0]] [0] 0 1 0 (by decide)
  have h4 := h.2.2.2 (by decide)
  simpa using h4

/-! ## Claim C2

The recursion-guard half of the claim holds: the compiler recurses into a
child exactly when its link is not `-1`, and the missing child contributes
no branch body.  The "never emitting an empty block" half fails: the
`else`/`endif` scaffolding is emitted unconditionally, so a node with
`rights[node] == -1` produces an else fragment immediately followed by the
endif fragment — an empty block. -/

/-- Counterexample for C2: on the descriptor with `lefts = [1, -1]`,
`rights = [-1, -1]` (node 0 has no right child) the compiler output ends
with the else fragment directly followed by the endif fragment, i.e. it
does emit an empty (else-)block for a one-sided split. -/
theorem one_sided_split_emits_empty_block :
    (([(-1 : Int), -1] : List Int).getD 0 0 = -1) ∧
    createBranch demoTreeTpls .c demoConv [1, -1] [-1, -1] [1, -2] [[0, 2], [3, 0]]
        [0, 0] 0 0 3
      = "\nif (features[0] <= T) \x7b\n    classes[0] = 3;\n"
          ++ demoTreeTpls.elseTpl ++ "\n" ++ demoTreeTpls.endifTpl
    ∧ hasSub (createBranch demoTreeTpls .c demoConv [1, -1] [-1, -1] [1, -2]
        [[0, 2], [3, 0]] [0, 0] 0 0 3).data ("\x7d else \x7b\n\x7d").data = true := by
  decide

/-- C2 (amended): at a non-leaf node the compiler recurses into the left
child exactly when `lefts[node] != -1` and into the right child exactly
when `rights[node] != -1`, omitting the missing child's branch body — but
the if/else/endif scaffolding is always emitted, so a one-sided split
produces an empty block between the else and endif fragments. -/
theorem split_recurses_only_into_present_children
    (tpls : TreeTemplates) (language : Language) (converter : Rat → String)
    (L R : List Int) (T : List Rat) (V : List (List Int)) (F : List Int)
    (node depth fuel : Nat) (hnode : T.getD node 0 ≠ -2) :
    createBranch tpls language converter L R T V F node depth (fuel + 1)
      = "\n"
        ++ textwrapIndent (tpls.ifTpl (featureRef language F node) "<="
             (converter (T.getD node 0))) (strRepeat tpls.indentTpl depth)
        ++ (if L.getD node 0 ≠ -1 then
              createBranch tpls language converter L R T V F
                (L.getD node 0).toNat (depth + 1) fuel
            else "")
        ++ "\n" ++ textwrapIndent tpls.elseTpl (strRepeat tpls.indentTpl depth)
        ++ (if R.getD node 0 ≠ -1 then
              createBranch tpls language converter L R T V F
                (R.getD node 0).toNat (depth + 1) fuel
            else "")
        ++ "\n" ++ textwrapIndent tpls.endifTpl (strRepeat tpls.indentTpl depth) := by
  have h2 : ¬ T[node]?.getD 0 = -2 := by
    simpa [List.getD_eq_getElem?_getD] using hnode
  simp [createBranch, h2, List.getD_eq_getElem?_getD]

/-- Witness for C2 (amended) at the counterexample descriptor: the left
child is entered, the missing right child contributes nothing, and the
scaffolding remains. -/
theorem split_recurses_only_into_present_children_witness :
    (([(1 : Rat), -2] : List Rat).getD 0 0 ≠ -2) ∧
    createBranch demoTreeTpls .c demoConv [1, -1] [-1, -1] [1, -2] [[0, 2], [3, 0]]
        [0, 0] 0 0 3
      = "\nif (features[0] <= T) \x7b\n    classes[0] = 3;\n\x7d else \x7b\n\x7d" := by
  refine ⟨by decide, ?_⟩
  rw [split_recurses_only_into_present_children demoTreeTpls .c demoConv
    [1, -1] [-1, -1] [1, -2] [[0, 2], [3, 0]] [0, 0] 0 0 2 (by decide)]
  decide

/-! ## Claim C3

`_system_call` retries up to the `range(10)` budget, but on exhaustion it
falls off the end of the loop and returns Python `None`: no path raises
`ExecutionFailed` (both handlers swallow their exceptions and the function
has no `raise`).  The success-on-the-10th-attempt half of the claim holds. -/

/-- Counterexample for C3: when all 10 attempts fail with a non-zero exit,
`_system_call` returns normally with Python `None` — it raises no
`ExecutionFailed` (nor any other) error. -/
theorem exhausted_retries_return_none :
    systemCall (fun _ => .callError) = .ok none := rfl

/-- C3 (amended): an execution whose 10 attempts all fail returns Python
`None` without raising; an execution that fails 9 times and succeeds on the
10th attempt returns the parsed result with no error. -/
theorem retry_budget_exhaustion_and_tenth_success
    (envA envB : Nat → AttemptOutcome) (parsed : ParsedOut) (p : PyVal)
    (hA : ∀ i < 10, envA i = .callError)
    (hB9 : ∀ i < 9, envB i = .callError)
    (hBout : envB 9 = .output (some parsed))
    (hBpred : parsed.predict = some p) :
    systemCall envA = .ok none
    ∧ systemCall envB = .ok (some (match parsed.predict_proba with
        | none => [p]
        | some pp => [p, pp])) := by
  have hrange : List.range 10 = [0, 1, 2, 3, 4, 5, 6, 7, 8, 9] := by decide
  constructor
  · show systemCallLoop ((List.range 10).map envA) = .ok none
    rw [hrange]
    simp only [List.map_cons, List.map_nil]
    rw [hA 0 (by omega), hA 1 (by omega), hA 2 (by omega), hA 3 (by omega),
      hA 4 (by omega), hA 5 (by omega), hA 6 (by omega), hA 7 (by omega),
      hA 8 (by omega), hA 9 (by omega)]
    rfl
  · show systemCallLoop ((List.range 10).map envB) = _
    rw [hrange]
    simp only [List.map_cons, List.map_nil]
    rw [hB9 0 (by omega), hB9 1 (by omega), hB9 2 (by omega), hB9 3 (by omega),
      hB9 4 (by omega), hB9 5 (by omega), hB9 6 (by omega), hB9 7 (by omega),
      hB9 8 (by omega), hBout]
    simp [systemCallLoop, hBpred]
    cases parsed.predict_proba <;> rfl

/-- Witness for C3 (amended): all-failures yields `None`; nine failures
followed by a parsed `predict` of 5 yields `[5]`. -/
theorem retry_budget_exhaustion_and_tenth_success_witness :
    systemCall (fun _ => .callError) = .ok none
    ∧ systemCall (fun i => if i = 9 then .output (some ⟨some (.num 5), none⟩)
        else .callError) = .ok (some [.num 5]) := by
  have h := retry_budget_exhaustion_and_tenth_success (fun _ => .callError)
    (fun i => if i = 9 then .output (some ⟨some (.num 5), none⟩) else .callError)
    ⟨some (.num 5), none⟩ (.num 5) (by decide) (by decide) (by decide) rfl
  simpa using h

/-! ## Claim C7

A row whose standard output fails to parse is logged and retried; if every
attempt of that row yields unparsable output, `_system_call` returns `None`
for the row, and the batch-level `zip(*y)` then raises a `TypeError`: the
whole batch fails instead of only that row being dropped. -/

/-- The value `_system_call` returns, with the (never-raising) `Except`
wrapper removed: used to relate the harness map to the reassembly. -/
def systemCallLoopVal : List AttemptOutcome → Option (List PyVal)
  | [] => none
  | .callError :: rest => systemCallLoopVal rest
  | .output none :: rest => systemCallLoopVal rest
  | .output (some parsed) :: _ =>
    match parsed.predict with
    | none => some []
    | some p =>
      match parsed.predict_proba with
      | none => some [p]
      | some pp => some [p, pp]

/-- `systemCallLoop` never raises: it returns its value mirror. -/
theorem systemCallLoop_eq_ok (l : List AttemptOutcome) :
    systemCallLoop l = .ok (systemCallLoopVal l) := by
  induction l with
  | nil => rfl
  | cons o rest ih =>
    cases o with
    | callError => simpa [systemCallLoop, systemCallLoopVal] using ih
    | output p =>
      cases p with
      | none => simpa [systemCallLoop, systemCallLoopVal] using ih
      | some parsed =>
        simp [systemCallLoop, systemCallLoopVal]
        cases parsed.predict with
        | none => rfl
        | some q => cases parsed.predict_proba <;> rfl

/-- The value of a full `_system_call`. -/
def systemCallVal (env : Nat → AttemptOutcome) : Option (List PyVal) :=
  systemCallLoopVal ((List.range 10).map env)

/-- `_system_call` never raises. -/
theorem systemCall_eq_ok (env : Nat → AttemptOutcome) :
    systemCall env = .ok (systemCallVal env) :=
  systemCallLoop_eq_ok _

/-- The collection phase reduces to reassembling the per-row values. -/
theorem makeCollect_eq (rowEnvs : List (Nat → AttemptOutcome)) :
    makeCollect rowEnvs = makeAggregate (rowEnvs.map systemCallVal) := by
  unfold makeCollect
  have h : pyMapE systemCall rowEnvs = .ok (rowEnvs.map systemCallVal) := by
    induction rowEnvs with
    | nil => rfl
    | cons e es ih => simp [pyMapE, systemCall_eq_ok, ih]
  rw [h]

/-- Counterexample for C7: in a two-row batch whose first row always
produces unparsable output while the second row succeeds with `predict = 7`,
the harness does not drop the first row and return the second — the whole
batch fails with the `zip` `TypeError`. -/
theorem malformed_row_output_fails_whole_batch :
    makeCollect [fun _ => .output none,
      fun _ => .output (some ⟨some (.num 7), none⟩)] = .error zipTypeError
    ∧ systemCall (fun _ => .output (some ⟨some (.num 7), none⟩))
        = .ok (some [.num 7]) := ⟨rfl, rfl⟩

/-- C7 (amended): a parse failure is logged and the attempt is retried
within the row's budget (the loop on a malformed output continues with the
remaining attempts); a row whose value ends up being Python `None` makes
the batch reassembly raise the `zip` `TypeError`, so the whole batch fails
and no other row's result is returned. -/
theorem malformed_row_retries_then_batch_type_error
    (rest : List AttemptOutcome) (rowEnvs : List (Nat → AttemptOutcome))
    (hsome : ∃ env ∈ rowEnvs, systemCall env = .ok none) :
    systemCallLoop (.output none :: rest) = systemCallLoop rest
    ∧ makeCollect rowEnvs = .error zipTypeError := by
  refine ⟨rfl, ?_⟩
  obtain ⟨env, henv, hok⟩ := hsome
  have hval : systemCallVal env = none := by
    have h := systemCall_eq_ok env
    rw [h] at hok
    exact Except.ok.inj hok
  rw [makeCollect_eq]
  have hany : (rowEnvs.map systemCallVal).any (fun r => decide (r = none)) = true := by
    simp only [List.any_eq_true, List.mem_map]
    exact ⟨none, ⟨env, henv, hval⟩, by simp⟩
  simp [makeAggregate, hany]

/-- Witness for C7 (amended): a batch with one exhausted-malformed row and
one good row fails as a whole. -/
theorem malformed_row_retries_then_batch_type_error_witness :
    makeCollect [fun _ => .output none,
      fun _ => .output (some ⟨some (.num 8), none⟩)] = .error zipTypeError := by
  have h := malformed_row_retries_then_batch_type_error []
    [fun _ => .output none, fun _ => .output (some ⟨some (.num 8), none⟩)]
    ⟨fun _ => .output none, by simp, rfl⟩
  exact h.2

/-! ## Claim C6

Positional reassembly: every completion event of the worker pool writes
task `j`'s result into slot `j`, so the reassembled results equal the
sequential `map` regardless of the order in which the scheduler completes
the tasks. -/

/-- A pool completion step preserves the number of slots. -/
theorem poolFold_length {α β : Type} (f : α → β) (xs : List α) (order : List Nat)
    (init : List (Option β)) :
    (order.foldl (poolStep f xs) init).length = init.length := by
  induction order generalizing init with
  | nil => rfl
  | cons j rest ih =>
    rw [List.foldl_cons, ih]
    unfold poolStep
    cases xs.get? j <;> simp

/-- Slots of tasks that never complete keep their initial value. -/
theorem poolFold_getElem?_not_mem {α β : Type} (f : α → β) (xs : List α)
    (order : List Nat) (init : List (Option β)) (j : Nat) (hj : j ∉ order) :
    (order.foldl (poolStep f xs) init)[j]? = init[j]? := by
  induction order generalizing init with
  | nil => rfl
  | cons a rest ih =>
    rw [List.foldl_cons, ih _ (fun h => hj (List.mem_cons_of_mem a h))]
    unfold poolStep
    cases h : xs.get? a
    · rfl
    · refine List.getElem?_set_ne (fun he => hj ?_)
      rw [← he]
      exact List.mem_cons_self a rest

/-- The slot of a completed task holds that task's own result, whatever the
completion order. -/
theorem poolFold_getElem?_mem {α β : Type} (f : α → β) (xs : List α)
    (order : List Nat) (init : List (Option β)) (j : Nat) (x : α)
    (hlen : init.length = xs.length) (hx : xs.get? j = some x) (hj : j ∈ order) :
    (order.foldl (poolStep f xs) init)[j]? = some (some (f x)) := by
  induction order generalizing init with
  | nil => cases hj
  | cons a rest ih =>
    rw [List.foldl_cons]
    by_cases hmem : j ∈ rest
    · refine ih _ ?_ hmem
      have hstep : (poolStep f xs init a).length = init.length := by
        unfold poolStep; cases xs.get? a <;> simp
      rw [hstep, hlen]
    · have hja : j = a := by
        rcases List.mem_cons.mp hj with h | h
        · exact h
        · exact absurd h hmem
      rw [poolFold_getElem?_not_mem f xs rest _ j hmem]
      subst hja
      unfold poolStep
      rw [hx]
      have hjlen : j < init.length := by
        rw [hlen]
        exact (List.get?_eq_some.mp hx).1
      exact List.getElem?_set_self hjlen

/-- C6: for every batch and every completion order of the worker pool (any
permutation of the task indices), the pool run reassembles exactly the
sequential single-worker result: output index i holds input row i's
prediction. -/
theorem pool_run_equals_sequential_run {α β : Type} (f : α → β) (xs : List α)
    (order : List Nat) (h : order.Perm (List.range xs.length)) :
    poolRun f xs order = (seqRun f xs).map some := by
  apply List.ext_getElem?
  intro j
  by_cases hj : j < xs.length
  · have hx : xs.get? j = some xs[j] := by
      simp [List.get?_eq_getElem?, List.getElem?_eq_getElem hj]
    have hmem : j ∈ order := h.mem_iff.mpr (List.mem_range.mpr hj)
    rw [poolRun, poolFold_getElem?_mem f xs order _ j xs[j] (by simp) hx hmem]
    simp [seqRun, List.getElem?_map, List.getElem?_eq_getElem hj]
  · have h1 : (poolRun f xs order).length ≤ j := by
      rw [poolRun, poolFold_length]
      simp; omega
    have h2 : ((seqRun f xs).map some).length ≤ j := by
      simp [seqRun]; omega
    rw [List.getElem?_eq_none h1, List.getElem?_eq_none h2]

/-- Witness for C6: the spec's example — rows mapping to outputs
`[5, 2, 9]` — under the out-of-order completion `[2, 0, 1]` still equals
the sequential run. -/
theorem pool_run_equals_sequential_run_witness :
    ([2, 0, 1] : List Nat).Perm (List.range ([0, 1, 2] : List Nat).length)
    ∧ poolRun (fun r => ([5, 2, 9] : List Nat).getD r 0) [0, 1, 2] [2, 0, 1]
        = (seqRun (fun r => ([5, 2, 9] : List Nat).getD r 0) [0, 1, 2]).map some := by
  refine ⟨by decide, ?_⟩
  exact pool_run_equals_sequential_run _ _ _ (by decide)

/-! ## Claim C8 -/

/-- C8: with dependency checking enabled, a missing toolchain binary makes
`make` raise the `RuntimeError` of `_check_dependencies` before any file is
created on disk: the set of files written by the call is empty. -/
theorem missing_dependency_raises_before_any_file
    (env : HostEnv) (meta : LanguageMeta) (saveFiles compileFiles : List String)
    (rowEnvs : List (Nat → AttemptOutcome)) (app : String)
    (hdep : app ∈ meta.DEPENDENCIES) (hmiss : app ∉ env.pathBinaries) :
    (makeRun env meta true saveFiles compileFiles rowEnvs).2 = []
    ∧ ∃ msg, (makeRun env meta true saveFiles compileFiles rowEnvs).1
        = .error msg := by
  have hp : (fun a => !env.pathBinaries.contains a) app = true := by
    simp [hmiss]
  have hsome : (meta.DEPENDENCIES.find?
      (fun a => !env.pathBinaries.contains a)).isSome := by
    rw [List.find?_isSome]
    exact ⟨app, hdep, hp⟩
  obtain ⟨a, ha⟩ := Option.isSome_iff_exists.mp hsome
  have hcheck : checkDependencies env meta
      = .error ("Required dependency `" ++ a ++ "` is missing.") := by
    unfold checkDependencies
    rw [ha]
  constructor
  · unfold makeRun
    rw [if_pos rfl, hcheck]
  · refine ⟨"Required dependency `" ++ a ++ "` is missing.", ?_⟩
    unfold makeRun
    rw [if_pos rfl, hcheck]

/-- Witness for C8: a host with only `gcc` on the `PATH` and a language
requiring `java`: the run errors and writes no file. -/
theorem missing_dependency_raises_before_any_file_witness :
    (makeRun ⟨["gcc"]⟩ ⟨["java"]⟩ true ["Model.java", "data.json"]
      ["Model.class"] []).2 = []
    ∧ ∃ msg, (makeRun ⟨["gcc"]⟩ ⟨["java"]⟩ true ["Model.java", "data.json"]
        ["Model.class"] []).1 = .error msg :=
  missing_dependency_raises_before_any_file ⟨["gcc"]⟩ ⟨["java"]⟩
    ["Model.java", "data.json"] ["Model.class"] [] "java" (by decide) (by decide)

/-! ## Claim C5

Both setters reject before the port stage can run, so no template is
rendered.  The claim's "names the offending combination" fails, however,
when the language itself is unsupported: the language setter's message
names only the language and the estimator, not the requested packaging
mode. -/

/-- Counterexample for C5: `MLPRegressor` does not support Java at all, so
the request (MLPRegressor, java, attached) is rejected by the language
setter — whose message does not name the packaging mode `attached`, i.e.
it does not name the offending combination. -/
theorem language_rejection_message_omits_packaging_mode :
    portPipeline .mlpRegressor .java .attached (fun _ _ => .single "rendered")
      = .error (languageRejectMsg .mlpRegressor .java)
    ∧ hasSub (languageRejectMsg .mlpRegressor .java).data "attached".data = false := by
  decide

/-- C5 (amended): a request whose (kind, language, mode) combination is
absent from the Capability Registry is rejected before any template is
rendered — the pipeline result is an error that does not depend on the
port/render stage at all — and the `NotSupportedYetError` message names
the model kind and the language, and additionally the packaging mode
whenever the language itself is supported (a wholly unsupported language is
reported without the mode). -/
theorem unsupported_combination_rejected_before_render
    (kind : EstimatorKind) (lang : Language) (tmpl : Template)
    (pa pb : Language → Template → PortOut)
    (h : can kind (some lang) (some tmpl) none = false) :
    portPipeline kind lang tmpl pa = portPipeline kind lang tmpl pb
    ∧ portPipeline kind lang tmpl pa = .error (rejectionMsg kind lang tmpl)
    ∧ hasSub (rejectionMsg kind lang tmpl).data kind.name.data = true
    ∧ hasSub (rejectionMsg kind lang tmpl).data lang.key.data = true
    ∧ (can kind (some lang) none none = true →
        hasSub (rejectionMsg kind lang tmpl).data tmpl.key.data = true) := by
  have hnames : ∀ (k : EstimatorKind) (l : Language) (t : Template),
      hasSub (rejectionMsg k l t).data k.name.data = true
      ∧ hasSub (rejectionMsg k l t).data l.key.data = true
      ∧ (can k (some l) none none = true →
          hasSub (rejectionMsg k l t).data t.key.data = true) := by decide
  by_cases hl : can kind (some lang) none none = true
  · have hsetl : setLanguage kind lang = .ok lang := by
      simp [setLanguage, hl]
    have hsett : setTemplate kind lang tmpl
        = .error (templateRejectMsg kind lang tmpl) := by
      simp [setTemplate, h]
    have hmsg : rejectionMsg kind lang tmpl = templateRejectMsg kind lang tmpl := by
      simp [rejectionMsg, hl]
    exact ⟨by simp [portPipeline, hsetl, hsett],
      by simp [portPipeline, hsetl, hsett, hmsg],
      (hnames kind lang tmpl).1, (hnames kind lang tmpl).2.1,
      (hnames kind lang tmpl).2.2⟩
  · have hl2 : can kind (some lang) none none = false := by
      simpa using hl
    have hsetl : setLanguage kind lang = .error (languageRejectMsg kind lang) := by
      simp [setLanguage, hl2]
    have hmsg : rejectionMsg kind lang tmpl = languageRejectMsg kind lang := by
      simp [rejectionMsg, hl2]
    exact ⟨by simp [portPipeline, hsetl],
      by simp [portPipeline, hsetl, hmsg],
      (hnames kind lang tmpl).1, (hnames kind lang tmpl).2.1,
      (hnames kind lang tmpl).2.2⟩

/-- Witness for C5 (amended): (MLPClassifier, java, combined) — the
language is supported, the mode is not; the rejection is independent of
the render stage and its message names kind, language and mode. -/
theorem unsupported_combination_rejected_before_render_witness :
    can .mlpClassifier (some .java) (some .combined) none = false
    ∧ (portPipeline .mlpClassifier .java .combined (fun _ _ => .single "A")
        = portPipeline .mlpClassifier .java .combined (fun _ _ => .single "B")
      ∧ portPipeline .mlpClassifier .java .combined (fun _ _ => .single "A")
          = .error (rejectionMsg .mlpClassifier .java .combined)
      ∧ hasSub (rejectionMsg .mlpClassifier .java .combined).data
          (EstimatorKind.mlpClassifier).name.data = true
      ∧ hasSub (rejectionMsg .mlpClassifier .java .combined).data
          (Language.java).key.data = true
      ∧ (can .mlpClassifier (some .java) none none = true →
          hasSub (rejectionMsg .mlpClassifier .java .combined).data
            (Template.combined).key.data = true)) :=
  ⟨by decide,
   unsupported_combination_rejected_before_render .mlpClassifier .java .combined
     (fun _ _ => .single "A") (fun _ _ => .single "B") (by decide)⟩

/-! ## Claim C9 -/

/-- C9: the COMBINED packaging mode is supported only for tree models —
for every language and every method the capability check for an MLP model
(classifier or regressor) with COMBINED returns unsupported, at both the
template granularity and the method granularity. -/
theorem mlp_combined_mode_unsupported :
    ∀ (lang : Language) (m : Method),
      can .mlpClassifier (some lang) (some .combined) (some m) = false
      ∧ can .mlpRegressor (some lang) (some .combined) (some m) = false
      ∧ can .mlpClassifier (some lang) (some .combined) none = false
      ∧ can .mlpRegressor (some lang) (some .combined) none = false := by
  decide

/-! ## Claim C10 -/

/-- C10: for both estimator families `port` returns the
`(out_class, model_data)` pair exactly when the packaging mode is EXPORTED,
and a single source string for ATTACHED and COMBINED — the tuple-versus-
string shape `make` tests with `isinstance(out, tuple)` is therefore a
faithful indicator of EXPORTED mode. -/
theorem port_returns_pair_iff_exported
    (tplsD : DTCTemplates) (tplsM : MLPTemplates) (language : Language)
    (template : Template) (cn : String) (conv : Rat → String)
    (dD : TreeModelData) (dM : MLPModelData) (fuel : Nat) :
    ((dtcPort tplsD language template cn conv dD fuel).isPair = true
      ↔ template = .exported)
    ∧ ((mlpPort tplsM template cn conv dM).isPair = true
      ↔ template = .exported) := by
  constructor
  · cases template <;> simp [dtcPort, PortOut.isPair]
  · cases template <;> simp [mlpPort, PortOut.isPair]

/-! ## Claim C4

The serializer emits the keys in dict insertion order with the `','`/`':'`
separators and no whitespace of its own, and the installed `FLOAT_REPR`
hook routes every float through the injected converter — but the integer
values of `model_data` (`lefts`, `rights`, `indices`, `classes`, `layers`)
are rendered by the standard integer `repr`, not by the converter, so
"every numeric value is formatted by the injected converter" fails. -/

/-- A string free of whitespace characters. -/
def noWS (s : String) : Prop := ∀ c ∈ s.data, c.isWhitespace = false

/-- Whitespace-freedom is checkable. -/
instance (s : String) : Decidable (noWS s) :=
  List.decidableBAll _ s.data

/-- Concatenation preserves whitespace-freedom. -/
theorem noWS_append {a b : String} (ha : noWS a) (hb : noWS b) : noWS (a ++ b) := by
  intro c hc
  rw [String.data_append] at hc
  rcases List.mem_append.mp hc with h | h
  · exact ha c h
  · exact hb c h

/-- A join of whitespace-free parts with a whitespace-free separator is
whitespace-free. -/
theorem noWS_pyJoin {sep : String} {parts : List String}
    (hsep : noWS sep) (hparts : ∀ s ∈ parts, noWS s) : noWS (pyJoin sep parts) := by
  induction parts with
  | nil => intro c hc; cases hc
  | cons s rest ih =>
    cases rest with
    | nil => exact hparts s (by simp)
    | cons t ts =>
      exact noWS_append (noWS_append (hparts s (by simp)) hsep)
        (ih (fun x hx => hparts x (by simp [hx])))

/-- Decimal digit characters are never whitespace. -/
theorem digitChar_not_ws : ∀ (n : Nat), (Nat.digitChar n).isWhitespace = false
  | 0 => rfl
  | 1 => rfl
  | 2 => rfl
  | 3 => rfl
  | 4 => rfl
  | 5 => rfl
  | 6 => rfl
  | 7 => rfl
  | 8 => rfl
  | 9 => rfl
  | 10 => rfl
  | 11 => rfl
  | 12 => rfl
  | 13 => rfl
  | 14 => rfl
  | 15 => rfl
  | _ + 16 => rfl

/-- The digit accumulator of `Nat.repr` adds no whitespace. -/
theorem toDigitsCore_noWS (b fuel n : Nat) (ds : List Char)
    (hds : ∀ c ∈ ds, c.isWhitespace = false) :
    ∀ c ∈ Nat.toDigitsCore b fuel n ds, c.isWhitespace = false := by
  induction fuel generalizing n ds with
  | zero => simpa [Nat.toDigitsCore] using hds
  | succ fuel ih =>
    unfold Nat.toDigitsCore
    simp only []
    split
    · intro c hc
      rcases List.mem_cons.mp hc with h | h
      · rw [h]; exact digitChar_not_ws _
      · exact hds c h
    · refine ih _ _ (fun c hc => ?_)
      rcases List.mem_cons.mp hc with h | h
      · rw [h]; exact digitChar_not_ws _
      · exact hds c h

/-- The decimal representation of a natural number contains no
whitespace. -/
theorem natRepr_noWS (n : Nat) : noWS (Nat.repr n) := by
  intro c hc
  exact toDigitsCore_noWS 10 (n + 1) n [] (by intro c hc; cases hc) c hc

/-- The decimal representation of an integer contains no whitespace. -/
theorem intToString_noWS (i : Int) : noWS (toString i) := by
  cases i with
  | ofNat m => exact natRepr_noWS m
  | negSucc m =>
    show noWS ("-" ++ Nat.repr (m + 1))
    refine noWS_append (fun c hc => ?_) (natRepr_noWS (m + 1))
    have hc2 : c = '-' := by simpa using hc
    rw [hc2]
    rfl

/-- A JSON array of integers as the serializer renders it. -/
def jsonIntArr (l : List Int) : String :=
  "[" ++ pyJoin "," (l.map toString) ++ "]"

/-- A JSON array of floats, each through the converter hook. -/
def jsonFloatArr (conv : Rat → String) (l : List Rat) : String :=
  "[" ++ pyJoin "," (l.map conv) ++ "]"

/-- A JSON matrix of integers. -/
def jsonIntMat (ll : List (List Int)) : String :=
  "[" ++ pyJoin "," (ll.map jsonIntArr) ++ "]"

/-- A JSON matrix of floats. -/
def jsonFloatMat (conv : Rat → String) (ll : List (List Rat)) : String :=
  "[" ++ pyJoin "," (ll.map (jsonFloatArr conv)) ++ "]"

/-- A JSON rank-3 tensor of floats. -/
def jsonFloatTens (conv : Rat → String) (t : List (List (List Rat))) : String :=
  "[" ++ pyJoin "," (t.map (jsonFloatMat conv)) ++ "]"

/-- Integer array elements serialize by decimal repr. -/
theorem pyDumpsList_int (fr : Rat → String) (l : List Int) :
    pyDumpsList fr (l.map .int) = pyJoin "," (l.map toString) := by
  induction l with
  | nil => rfl
  | cons x xs ih =>
    cases xs with
    | nil => rfl
    | cons y ys =>
      simp only [List.map_cons] at ih ⊢
      rw [pyDumpsList, pyJoin, ih]
      · rfl
      all_goals simp

/-- Float array elements serialize through the hook. -/
theorem pyDumpsList_float (fr : Rat → String) (l : List Rat) :
    pyDumpsList fr (l.map .float) = pyJoin "," (l.map fr) := by
  induction l with
  | nil => rfl
  | cons x xs ih =>
    cases xs with
    | nil => rfl
    | cons y ys =>
      simp only [List.map_cons] at ih ⊢
      rw [pyDumpsList, pyJoin, ih]
      · rfl
      all_goals simp

/-- Integer matrices serialize row by row. -/
theorem pyDumpsList_intMat (fr : Rat → String) (ll : List (List Int)) :
    pyDumpsList fr (ll.map (fun row => .arr (row.map .int)))
      = pyJoin "," (ll.map jsonIntArr) := by
  induction ll with
  | nil => rfl
  | cons x xs ih =>
    cases xs with
    | nil =>
      simp only [List.map_cons, List.map_nil]
      rw [pyDumpsList, pyDumps, pyDumpsList_int]
      rfl
    | cons y ys =>
      simp only [List.map_cons] at ih ⊢
      rw [pyDumpsList, pyJoin, ih, pyDumps, pyDumpsList_int]
      · rfl
      all_goals simp

/-- Float matrices serialize row by row. -/
theorem pyDumpsList_floatMat (fr : Rat → String) (ll : List (List Rat)) :
    pyDumpsList fr (ll.map (fun row => .arr (row.map .float)))
      = pyJoin "," (ll.map (jsonFloatArr fr)) := by
  induction ll with
  | nil => rfl
  | cons x xs ih =>
    cases xs with
    | nil =>
      simp only [List.map_cons, List.map_nil]
      rw [pyDumpsList, pyDumps, pyDumpsList_float]
      rfl
    | cons y ys =>
      simp only [List.map_cons] at ih ⊢
      rw [pyDumpsList, pyJoin, ih, pyDumps, pyDumpsList_float]
      · rfl
      all_goals simp

/-- Float tensors serialize layer by layer. -/
theorem pyDumpsList_floatTens (fr : Rat → String) (t : List (List (List Rat))) :
    pyDumpsList fr (t.map (fun layer =>
        .arr (layer.map (fun row => .arr (row.map .float)))))
      = pyJoin "," (t.map (jsonFloatMat fr)) := by
  induction t with
  | nil => rfl
  | cons x xs ih =>
    cases xs with
    | nil =>
      simp only [List.map_cons, List.map_nil]
      rw [pyDumpsList, pyDumps, pyDumpsList_floatMat]
      rfl
    | cons y ys =>
      simp only [List.map_cons] at ih ⊢
      rw [pyDumpsList, pyJoin, ih, pyDumps, pyDumpsList_floatMat]
      · rfl
      all_goals simp

/-- The EXPORTED tree data file, written out: keys in insertion order,
`','`/`':'` separators, integers by decimal repr, thresholds through the
converter. -/
theorem treeExportedData_eq (conv : Rat → String) (d : TreeModelData) :
    treeExportedData conv d
      = "\x7b" ++ "\"" ++ "lefts" ++ "\":" ++ jsonIntArr d.lefts
        ++ "," ++ "\"" ++ "rights" ++ "\":" ++ jsonIntArr d.rights
        ++ "," ++ "\"" ++ "thresholds" ++ "\":" ++ jsonFloatArr conv d.thresholds
        ++ "," ++ "\"" ++ "indices" ++ "\":" ++ jsonIntArr d.indices
        ++ "," ++ "\"" ++ "classes" ++ "\":" ++ jsonIntMat d.classes
        ++ "\x7d" := by
  unfold treeExportedData treeModelDataJson
  rw [pyDumps]
  rw [pyDumpsFields, pyDumpsFields, pyDumpsFields, pyDumpsFields, pyDumpsFields]
  rw [pyDumps, pyDumps, pyDumps, pyDumps, pyDumps]
  rw [pyDumpsList_int, pyDumpsList_int, pyDumpsList_float, pyDumpsList_int,
    pyDumpsList_intMat]
  · simp only [jsonIntArr, jsonFloatArr, jsonIntMat, String.append_assoc]
  all_goals simp

/-- The EXPORTED MLP data file, written out; the `output_activation` key is
appended exactly when present. -/
theorem mlpExportedData_eq (conv : Rat → String) (d : MLPModelData) :
    mlpExportedData conv d
      = "\x7b" ++ "\"" ++ "layers" ++ "\":" ++ jsonIntArr d.layers
        ++ "," ++ "\"" ++ "weights" ++ "\":" ++ jsonFloatTens conv d.weights
        ++ "," ++ "\"" ++ "bias" ++ "\":" ++ jsonFloatMat conv d.bias
        ++ "," ++ "\"" ++ "hidden_activation" ++ "\":"
        ++ "\"" ++ d.hidden_activation ++ "\""
        ++ (match d.output_activation with
            | some s => "," ++ "\"" ++ "output_activation" ++ "\":"
                ++ "\"" ++ s ++ "\""
            | none => "")
        ++ "\x7d" := by
  rcases d with ⟨la, w, bi, ha, oa⟩
  cases oa with
  | none =>
    unfold mlpExportedData mlpModelDataJson
    simp only [List.append_nil]
    rw [pyDumps]
    rw [pyDumpsFields, pyDumpsFields, pyDumpsFields, pyDumpsFields]
    rw [pyDumps, pyDumps, pyDumps, pyDumps]
    rw [pyDumpsList_int, pyDumpsList_floatTens, pyDumpsList_floatMat]
    · simp only [jsonIntArr, jsonFloatTens, jsonFloatMat, String.append_assoc]
      simp
    all_goals simp
  | some s =>
    unfold mlpExportedData mlpModelDataJson
    simp only [List.cons_append, List.nil_append]
    rw [pyDumps]
    rw [pyDumpsFields, pyDumpsFields, pyDumpsFields, pyDumpsFields, pyDumpsFields]
    rw [pyDumps, pyDumps, pyDumps, pyDumps, pyDumps]
    rw [pyDumpsList_int, pyDumpsList_floatTens, pyDumpsList_floatMat]
    · simp only [jsonIntArr, jsonFloatTens, jsonFloatMat, String.append_assoc]
    all_goals simp

/-- Integer arrays serialize without whitespace. -/
theorem jsonIntArr_noWS (l : List Int) : noWS (jsonIntArr l) := by
  unfold jsonIntArr
  refine noWS_append (noWS_append (by decide) ?_) (by decide)
  refine noWS_pyJoin (by decide) ?_
  intro s hs
  obtain ⟨i, _, rfl⟩ := List.mem_map.mp hs
  exact intToString_noWS i

/-- Float arrays serialize without whitespace when the converter emits
none. -/
theorem jsonFloatArr_noWS (conv : Rat → String) (hconv : ∀ q, noWS (conv q))
    (l : List Rat) : noWS (jsonFloatArr conv l) := by
  unfold jsonFloatArr
  refine noWS_append (noWS_append (by decide) ?_) (by decide)
  refine noWS_pyJoin (by decide) ?_
  intro s hs
  obtain ⟨q, _, rfl⟩ := List.mem_map.mp hs
  exact hconv q

/-- Integer matrices serialize without whitespace. -/
theorem jsonIntMat_noWS (ll : List (List Int)) : noWS (jsonIntMat ll) := by
  unfold jsonIntMat
  refine noWS_append (noWS_append (by decide) ?_) (by decide)
  refine noWS_pyJoin (by decide) ?_
  intro s hs
  obtain ⟨r, _, rfl⟩ := List.mem_map.mp hs
  exact jsonIntArr_noWS r

/-- Float matrices serialize without whitespace. -/
theorem jsonFloatMat_noWS (conv : Rat → String) (hconv : ∀ q, noWS (conv q))
    (ll : List (List Rat)) : noWS (jsonFloatMat conv ll) := by
  unfold jsonFloatMat
  refine noWS_append (noWS_append (by decide) ?_) (by decide)
  refine noWS_pyJoin (by decide) ?_
  intro s hs
  obtain ⟨r, _, rfl⟩ := List.mem_map.mp hs
  exact jsonFloatArr_noWS conv hconv r

/-- Float tensors serialize without whitespace. -/
theorem jsonFloatTens_noWS (conv : Rat → String) (hconv : ∀ q, noWS (conv q))
    (t : List (List (List Rat))) : noWS (jsonFloatTens conv t) := by
  unfold jsonFloatTens
  refine noWS_append (noWS_append (by decide) ?_) (by decide)
  refine noWS_pyJoin (by decide) ?_
  intro s hs
  obtain ⟨r, _, rfl⟩ := List.mem_map.mp hs
  exact jsonFloatMat_noWS conv hconv r

/-- The tree data file contains no whitespace (converter emitting none). -/
theorem treeExportedData_noWS (conv : Rat → String) (d : TreeModelData)
    (hconv : ∀ q, noWS (conv q)) : noWS (treeExportedData conv d) := by
  rw [treeExportedData_eq]
  repeat' apply noWS_append
  all_goals first
    | decide
    | exact jsonIntArr_noWS _
    | exact jsonFloatArr_noWS conv hconv _
    | exact jsonIntMat_noWS _
    | (refine noWS_pyJoin (by decide) ?_
       intro x hx
       obtain ⟨el, _, rfl⟩ := List.mem_map.mp hx
       first
         | exact intToString_noWS el
         | exact hconv el
         | exact jsonIntArr_noWS el)

/-- The MLP data file contains no whitespace (converter and activation
identifiers emitting none). -/
theorem mlpExportedData_noWS (conv : Rat → String) (d : MLPModelData)
    (hconv : ∀ q, noWS (conv q)) (hha : noWS d.hidden_activation)
    (hoa : ∀ s, d.output_activation = some s → noWS s) :
    noWS (mlpExportedData conv d) := by
  rw [mlpExportedData_eq]
  rcases hact : d.output_activation with _ | s
  · simp only [hact]
    repeat' apply noWS_append
    all_goals first
      | decide
      | exact jsonIntArr_noWS _
      | exact jsonFloatArr_noWS conv hconv _
      | exact jsonFloatMat_noWS conv hconv _
      | exact jsonFloatTens_noWS conv hconv _
      | exact hha
      | (intro c hc; cases hc)
      | (refine noWS_pyJoin (by decide) ?_
         intro x hx
         obtain ⟨el, _, rfl⟩ := List.mem_map.mp hx
         first
           | exact intToString_noWS el
           | exact hconv el
           | exact jsonIntArr_noWS el
           | exact jsonFloatArr_noWS conv hconv el
           | exact jsonFloatMat_noWS conv hconv el)
  · simp only [hact]
    repeat' apply noWS_append
    all_goals first
      | decide
      | exact jsonIntArr_noWS _
      | exact jsonFloatArr_noWS conv hconv _
      | exact jsonFloatMat_noWS conv hconv _
      | exact jsonFloatTens_noWS conv hconv _
      | exact hha
      | exact hoa s hact
      | (refine noWS_pyJoin (by decide) ?_
         intro x hx
         obtain ⟨el, _, rfl⟩ := List.mem_map.mp hx
         first
           | exact intToString_noWS el
           | exact hconv el
           | exact jsonIntArr_noWS el
           | exact jsonFloatArr_noWS conv hconv el
           | exact jsonFloatMat_noWS conv hconv el)

/-- Counterexample for C4: with the constant converter `"X"` the tree data
file keeps the integers `1`, `-1`, `0` in decimal form — it differs from
the spec-worded serializer that routes every numeric value through the
converter.  Only the threshold (a float) is converter-formatted. -/
theorem exported_json_integers_bypass_converter :
    treeExportedData (fun _ => "X") ⟨[1], [-1], [-2], [0], [[1]]⟩
      ≠ specDumpsAllNumeric (fun _ => "X")
          (treeModelDataJson ⟨[1], [-1], [-2], [0], [[1]]⟩)
    ∧ treeExportedData (fun _ => "X") ⟨[1], [-1], [-2], [0], [[1]]⟩
      = "\x7b\"lefts\":[1],\"rights\":[-1],\"thresholds\":[X],\"indices\":[0],\"classes\":[[1]]\x7d" := by
  have h1 : treeExportedData (fun _ => "X") ⟨[1], [-1], [-2], [0], [[1]]⟩
      = "\x7b\"lefts\":[1],\"rights\":[-1],\"thresholds\":[X],\"indices\":[0],\"classes\":[[1]]\x7d" := by
    rw [treeExportedData_eq]
    decide
  have h2 : specDumpsAllNumeric (fun _ => "X")
      (treeModelDataJson ⟨[1], [-1], [-2], [0], [[1]]⟩)
      = "\x7b\"lefts\":[X],\"rights\":[X],\"thresholds\":[X],\"indices\":[X],\"classes\":[[X]]\x7d" := by
    simp [treeModelDataJson, specDumpsAllNumeric, specDumpsAllNumericFields,
      specDumpsAllNumericList]
  rw [h1, h2]
  exact ⟨by decide, rfl⟩

/-- C4 (amended): for both model families the EXPORTED data file is the
compact JSON document with keys in the fixed insertion order and only the
`','`/`':'` separators; every floating-point value is formatted by the
injected converter (the same converter used for the inline literals of the
other modes), integer values are rendered in standard decimal form, and
the serializer inserts no whitespace (the file is whitespace-free whenever
the converter and activation identifiers emit none). -/
theorem exported_data_compact_stable_order_floats_via_converter
    (conv : Rat → String) (dT : TreeModelData) (dM : MLPModelData)
    (hconv : ∀ q, noWS (conv q)) (hha : noWS dM.hidden_activation)
    (hoa : ∀ s, dM.output_activation = some s → noWS s) :
    treeExportedData conv dT
      = "\x7b" ++ "\"" ++ "lefts" ++ "\":" ++ jsonIntArr dT.lefts
        ++ "," ++ "\"" ++ "rights" ++ "\":" ++ jsonIntArr dT.rights
        ++ "," ++ "\"" ++ "thresholds" ++ "\":" ++ jsonFloatArr conv dT.thresholds
        ++ "," ++ "\"" ++ "indices" ++ "\":" ++ jsonIntArr dT.indices
        ++ "," ++ "\"" ++ "classes" ++ "\":" ++ jsonIntMat dT.classes
        ++ "\x7d"
    ∧ mlpExportedData conv dM
      = "\x7b" ++ "\"" ++ "layers" ++ "\":" ++ jsonIntArr dM.layers
        ++ "," ++ "\"" ++ "weights" ++ "\":" ++ jsonFloatTens conv dM.weights
        ++ "," ++ "\"" ++ "bias" ++ "\":" ++ jsonFloatMat conv dM.bias
        ++ "," ++ "\"" ++ "hidden_activation" ++ "\":"
        ++ "\"" ++ dM.hidden_activation ++ "\""
        ++ (match dM.output_activation with
            | some s => "," ++ "\"" ++ "output_activation" ++ "\":"
                ++ "\"" ++ s ++ "\""
            | none => "")
        ++ "\x7d"
    ∧ noWS (treeExportedData conv dT)
    ∧ noWS (mlpExportedData conv dM) :=
  ⟨treeExportedData_eq conv dT, mlpExportedData_eq conv dM,
   treeExportedData_noWS conv dT hconv,
   mlpExportedData_noWS conv dM hconv hha hoa⟩

/-- Witness for C4 (amended): a concrete converter and model data — the
data files are whitespace-free. -/
theorem exported_data_compact_stable_order_floats_via_converter_witness :
    (∀ q : Rat, noWS ((fun _ => "0.5") q))
    ∧ noWS (treeExportedData (fun _ => "0.5") ⟨[1], [-1], [-2], [0], [[1]]⟩)
    ∧ noWS (mlpExportedData (fun _ => "0.5")
        ⟨[2], [[[1]]], [[0]], "relu", some "softmax"⟩) := by
  refine ⟨fun _ => (by decide : noWS "0.5"), ?_, ?_⟩
  · exact (exported_data_compact_stable_order_floats_via_converter
      (fun _ => "0.5") ⟨[1], [-1], [-2], [0], [[1]]⟩
      ⟨[2], [[[1]]], [[0]], "relu", some "softmax"⟩
      (fun _ => (by decide : noWS "0.5")) (by decide)
      (by intro s hs; cases hs; decide)).2.2.1
  · exact (exported_data_compact_stable_order_floats_via_converter
      (fun _ => "0.5") ⟨[1], [-1], [-2], [0], [[1]]⟩
      ⟨[2], [[[1]]], [[0]], "relu", some "softmax"⟩
      (fun _ => (by decide : noWS "0.5")) (by decide)
      (by intro s hs; cases hs; decide)).2.2.2

end SkPorter
